import Mathlib

/-!
Verification of the document-conversion pipeline of the Retrieval-Framework
repository: LaTeX segmentation (`pdf_processor/latex_helpers.py`), the
Mathpix service client and result parser (`pdf_processor/core.py`), the
content-addressed submission cache and legacy text pipeline
(`pdf_parser/pdf_processor.py`), and the per-document retry loop
(`process_inbox.py`).

Strings are modelled as `List Char`, byte streams as `List Nat` with values
below 256.  The LaTeX parse tree produced by the external `pylatexenc`
library is modelled as an abstract node tree carrying source positions; its
documented behaviour (nodes in source order, nested spans, positive extent)
is captured by a well-formedness predicate.
-/

namespace RetrievalFramework

/-- Chunk type tag, mirroring `LatexChunkType` in `latex_helpers.py`
(`table`, `text`, `image`). -/
inductive LatexChunkType where
  | table
  | text
  | image
deriving DecidableEq, Repr

/-- Mirrors the `LatexChunk` pydantic model: a span `[start, stop)` of the
LaTeX source (`stop` stands for the Python field `end`, a Lean keyword),
a type tag, an optional linked filename and the raw/processed contents. -/
structure LatexChunk where
  start : Nat
  stop : Nat
  type : LatexChunkType
  filename : Option (List Char) := none
  raw_content : List Char := []
  processed_content : List Char := []
deriving DecidableEq, Repr

/-- Abstract model of the `pylatexenc` parse-tree nodes that
`get_latex_chunks` inspects.  `envNode` mirrors `LatexEnvironmentNode`
(environment name, `pos`, `len`, `nodelist`), `cmdNode` mirrors a macro
node such as `includegraphics` (name, `pos`, `len`, filename argument),
`groupNode` mirrors `LatexGroupNode` and `charsNode` stands for every
other leaf node kind.  The walker itself is external library code, so the
tree is an input of the embedded segmenter. -/
inductive LNode where
  | envNode (name : List Char) (pos nlen : Nat) (children : List LNode)
  | cmdNode (name : List Char) (pos nlen : Nat) (arg : List Char)
  | groupNode (pos nlen : Nat) (children : List LNode)
  | charsNode (pos nlen : Nat)

/-- Source span start of a node (`node.pos`). -/
def LNode.pos : LNode → Nat
  | .envNode _ p _ _ => p
  | .cmdNode _ p _ _ => p
  | .groupNode p _ _ => p
  | .charsNode p _ => p

/-- Source span length of a node (`node.len`). -/
def LNode.nlen : LNode → Nat
  | .envNode _ _ l _ => l
  | .cmdNode _ _ l _ => l
  | .groupNode _ l _ => l
  | .charsNode _ l => l

/-- Embeds the inner `extract_chunks` of `get_latex_chunks`
(`latex_helpers.py` lines 57-80): a `tabular` environment or an
`includegraphics` macro emits a table/image chunk covering the node's
span; any other group or environment node is recursed into; every other
node is skipped. -/
def extract_chunks : List LNode → List LatexChunk
  | [] => []
  | .envNode name p l cs :: rest =>
      if name = "tabular".data then
        { start := p, stop := p + l, type := LatexChunkType.table } :: extract_chunks rest
      else
        extract_chunks cs ++ extract_chunks rest
  | .cmdNode name p l arg :: rest =>
      if name = "includegraphics".data then
        { start := p, stop := p + l, type := LatexChunkType.image,
          filename := some arg } :: extract_chunks rest
      else
        extract_chunks rest
  | .groupNode _ _ cs :: rest => extract_chunks cs ++ extract_chunks rest
  | .charsNode _ _ :: rest => extract_chunks rest

/-- Embeds step 2 of `get_latex_chunks` (lines 86-109): walk the
table/image chunks keeping `last_pos`, inserting a text chunk in front of
every gap, and append a trailing text chunk when `last_pos < len`. -/
def fill_gaps (lastPos total : Nat) : List LatexChunk → List LatexChunk
  | [] =>
      if lastPos < total then
        [{ start := lastPos, stop := total, type := LatexChunkType.text }]
      else []
  | c :: cs =>
      (if lastPos < c.start then
        [{ start := lastPos, stop := c.start, type := LatexChunkType.text }]
      else []) ++ c :: fill_gaps c.stop total cs

/-- Substring `s[a:b]` of the source, as in Python slicing with
`0 ≤ a ≤ b ≤ len s` in the intended uses. -/
def slice (s : List Char) (a b : Nat) : List Char :=
  (s.take b).drop a

/-- Embeds step 3 of `get_latex_chunks` (lines 112-113): store the source
substring of each chunk in `raw_content`. -/
def set_raw (s : List Char) (c : LatexChunk) : LatexChunk :=
  { c with raw_content := slice s c.start c.stop }

/-- Embeds `get_latex_chunks` (`latex_helpers.py` lines 47-115).  The
`nodes` argument stands for the parse tree that `LatexWalker(latex_str)`
returns; the rest is the repository's own code. -/
def get_latex_chunks (s : List Char) (nodes : List LNode) : List LatexChunk :=
  (fill_gaps 0 s.length (extract_chunks nodes)).map (set_raw s)

mutual

/-- Well-formedness of one parse-tree node within bounds `[lo, hi]`:
the span starts at or after `lo`, has positive extent, ends at or before
`hi`, and the children (in order) tile into the node's own span.  This is
the documented shape of a `pylatexenc` parse tree. -/
def nodeWF (lo hi : Nat) : LNode → Bool
  | .envNode _ p l cs =>
      decide (lo ≤ p) && decide (0 < l) && decide (p + l ≤ hi) && nodesWF p (p + l) cs
  | .cmdNode _ p l _ =>
      decide (lo ≤ p) && decide (0 < l) && decide (p + l ≤ hi)
  | .groupNode p l cs =>
      decide (lo ≤ p) && decide (0 < l) && decide (p + l ≤ hi) && nodesWF p (p + l) cs
  | .charsNode p l =>
      decide (lo ≤ p) && decide (0 < l) && decide (p + l ≤ hi)

/-- Well-formedness of a sibling list: each node is well-formed in the
bounds and each later sibling starts at or after the previous one ends. -/
def nodesWF (lo hi : Nat) : List LNode → Bool
  | [] => true
  | n :: ns => nodeWF lo hi n && nodesWF (n.pos + n.nlen) hi ns

end

/-- Chunk list is sorted with nonempty pairwise-disjoint spans inside
`[lo, hi]`. -/
def chunksWithin (lo hi : Nat) : List LatexChunk → Bool
  | [] => true
  | c :: cs =>
      decide (lo ≤ c.start) && decide (c.start < c.stop) && decide (c.stop ≤ hi) &&
        chunksWithin c.stop hi cs

/-- Chunk list exactly tiles `[lo, hi)`: consecutive spans are contiguous
(each chunk starts where the previous one stopped), nonempty (hence
strictly ascending and non-overlapping), and the last one stops at `hi`. -/
def chunksTile (lo hi : Nat) : List LatexChunk → Bool
  | [] => decide (lo = hi)
  | c :: cs => decide (c.start = lo) && decide (c.start < c.stop) && chunksTile c.stop hi cs

/-! Lemmas about the segmenter. -/

/-! Reassembly: `MathpixResultParser.parse_result` (`pdf_processor/core.py`)
and the legacy `PdfProcessor.pdf_to_txt` (`pdf_parser/pdf_processor.py`). -/

/-- Delimiter constants of `core.py` lines 54-57 (identical to the class
constants of `pdf_parser/pdf_processor.py` lines 18-21). -/
def IMAGE_START_DELIMITER : List Char := "\n<===IMAGE START===>\n".data

def IMAGE_END_DELIMITER : List Char := "\n<===IMAGE END===>\n".data

def TABLE_START_DELIMITER : List Char := "\n<===TABLE START===>\n".data

def TABLE_END_DELIMITER : List Char := "\n<===TABLE END===>\n".data

/-- Embeds the per-chunk `match chunk.type` of `parse_result` (`core.py`
lines 238-257).  `tableDesc` stands for `self.convert_table` (an LLM call)
and `imgDesc` for the composition of `fetch_img` with `self.convert_image`
(archive read plus vision-LLM call), both external collaborators, applied
to the chunk's linked filename.  The f-string of lines 244-246 and 252-254
places an extra newline between each delimiter and the converted text. -/
def process_chunk (tableDesc : List Char → List Char)
    (imgDesc : Option (List Char) → List Char) (c : LatexChunk) : LatexChunk :=
  match c.type with
  | LatexChunkType.text => { c with processed_content := c.raw_content }
  | LatexChunkType.table =>
      { c with processed_content :=
          TABLE_START_DELIMITER ++ "\n".data ++ tableDesc c.raw_content ++ "\n".data ++
            TABLE_END_DELIMITER }
  | LatexChunkType.image =>
      { c with processed_content :=
          IMAGE_START_DELIMITER ++ "\n".data ++ imgDesc c.filename ++ "\n".data ++
            IMAGE_END_DELIMITER }

/-- Embeds the pre-cleanup reassembled string of `parse_result`
(`core.py` line 260): segment, process every chunk, then concatenate the
`processed_content` fields in order.  The later cleanup passes
(`preprocess_regex`, `LatexNodes2Text`, `postprocess_regex`) are outside
this value. -/
def parse_result_reassembled (tableDesc : List Char → List Char)
    (imgDesc : Option (List Char) → List Char) (s : List Char)
    (nodes : List LNode) : List Char :=
  ((((get_latex_chunks s nodes).map (process_chunk tableDesc imgDesc))).map
    LatexChunk.processed_content).flatten

/-- A piece of `pdf_to_txt`: `(start, length, type, filename)` exactly as
built by `find_latex_pieces`. -/
abbrev Piece := Nat × Nat × LatexChunkType × Option (List Char)

/-- Embeds `PdfProcessor.find_latex_pieces` (`pdf_parser/pdf_processor.py`
lines 186-198). -/
def find_latex_pieces : List LNode → List Piece
  | [] => []
  | .envNode name p l cs :: rest =>
      if name = "tabular".data then
        (p, l, LatexChunkType.table, none) :: find_latex_pieces rest
      else
        find_latex_pieces cs ++ find_latex_pieces rest
  | .cmdNode name p l arg :: rest =>
      if name = "includegraphics".data then
        (p, l, LatexChunkType.image, some arg) :: find_latex_pieces rest
      else
        find_latex_pieces rest
  | .groupNode _ _ cs :: rest => find_latex_pieces cs ++ find_latex_pieces rest
  | .charsNode _ _ :: rest => find_latex_pieces rest

/-- Embeds the `text_pieces` gap-filling loop of `pdf_to_txt` (lines
125-133). -/
def fill_text_pieces (lastPos total : Nat) : List Piece → List Piece
  | [] =>
      if lastPos < total then [(lastPos, total - lastPos, LatexChunkType.text, none)]
      else []
  | (start, length, t, f) :: ps =>
      (if lastPos < start then [(lastPos, start - lastPos, LatexChunkType.text, none)]
       else []) ++ (start, length, t, f) :: fill_text_pieces (start + length) total ps

/-- Embeds the `processed_latex_string` accumulation loop of `pdf_to_txt`
(lines 135-149): text fragments verbatim, images and tables wrapped in
the bare delimiters around the converted output (no extra newline, unlike
`parse_result`). -/
def assemble_pieces (tableDesc : List Char → List Char)
    (imgDesc : Option (List Char) → List Char) (s : List Char) : List Piece → List Char
  | [] => []
  | (start, length, t, f) :: ps =>
      (match t with
       | LatexChunkType.text => slice s start (start + length)
       | LatexChunkType.image => IMAGE_START_DELIMITER ++ imgDesc f ++ IMAGE_END_DELIMITER
       | LatexChunkType.table =>
          TABLE_START_DELIMITER ++ tableDesc (slice s start (start + length)) ++
            TABLE_END_DELIMITER) ++ assemble_pieces tableDesc imgDesc s ps

/-- Embeds the reassembled string of `pdf_to_txt` just before its cleanup
passes (`regex_preprocessing` at line 151): the latex string is segmented
through `find_latex_pieces`, gap-filled, and assembled with delimiters. -/
def pdf_to_txt_assembled (tableDesc : List Char → List Char)
    (imgDesc : Option (List Char) → List Char) (s : List Char)
    (nodes : List LNode) : List Char :=
  assemble_pieces tableDesc imgDesc s (fill_text_pieces 0 s.length (find_latex_pieces nodes))

/-! Content-addressed submission cache: `PdfProcessor.get_mathpix_pdf_id`
and its sqlite `pdfs` table (`pdf_parser/pdf_processor.py` lines 32-98). -/

/-- One row of the `pdfs` table:
`(md5 TEXT PRIMARY KEY, filename TEXT, mathpix_pdf_id TEXT)`.  The id
column is nullable because line 59 inserts whatever
`_process_pdf_with_mathpix` returned, which is `None` when the HTTP
submission was not `ok`. -/
structure CacheRow where
  md5 : List Char
  filename : List Char
  mathpix_pdf_id : Option (List Char)
deriving DecidableEq, Repr

/-- The persistent `pdfs` table, in row order. -/
structure CacheDB where
  rows : List CacheRow
deriving DecidableEq, Repr

/-- Embeds `SELECT mathpix_pdf_id FROM pdfs WHERE md5 = ?` followed by
`fetchone()`: `none` when no row matches, `some stored` otherwise.  Note
that a row whose `mathpix_pdf_id` is NULL still produces the truthy
one-element tuple `(None,)` in Python, hence still counts as a hit. -/
def CacheDB.lookup (db : CacheDB) (key : List Char) : Option (Option (List Char)) :=
  (db.rows.find? (fun r => r.md5 == key)).map CacheRow.mathpix_pdf_id

/-- Embeds the `INSERT INTO pdfs (md5, filename, mathpix_pdf_id)` of line
59-60. -/
def CacheDB.insertRow (db : CacheDB) (r : CacheRow) : CacheDB :=
  ⟨db.rows ++ [r]⟩

/-- Observable outcome of one `get_mathpix_pdf_id` call: the returned
identifier, the cache state afterwards, and how many times
`_process_pdf_with_mathpix` (the external submission) was invoked. -/
structure CacheCallResult where
  pdf_id : Option (List Char)
  db : CacheDB
  submissions : Nat
deriving DecidableEq, Repr

/-- Embeds `PdfProcessor.get_mathpix_pdf_id` (lines 43-63).  `md5fn`
stands for `hashlib.md5` over the file's full byte stream
(`_calculate_md5`), a deterministic function of the content; `basename`
is `os.path.basename(pdf_path)`; `submitResult` is what the external
submission `_process_pdf_with_mathpix` would return on this call
(`some id` when the response is ok, `none` otherwise, lines 94-98).
On a hit the stored id is returned with no submission and no write; on a
miss the submission result is inserted unconditionally and returned. -/
def get_mathpix_pdf_id (md5fn : List Nat → List Char) (content : List Nat)
    (basename : List Char) (submitResult : Option (List Char)) (db : CacheDB) :
    CacheCallResult :=
  match db.lookup (md5fn content) with
  | some stored => { pdf_id := stored, db := db, submissions := 0 }
  | none =>
      { pdf_id := submitResult,
        db := db.insertRow
          { md5 := md5fn content, filename := basename, mathpix_pdf_id := submitResult },
        submissions := 1 }

/-! Service polling: `MathpixProcessor.await_result` (`core.py` lines
135-198).  Time is discrete: each poll is instantaneous and iteration `k`
of the loop happens `k * sleep_s` seconds after polling started (the only
time that passes is the `time.sleep(sleep_s)` at the end of each
iteration). -/

/-- Status reported by one poll of the status endpoint, as inspected by
lines 165-176: `completed`, `error`, or anything else (still running). -/
inductive PollStatus where
  | completed
  | errorStatus
  | running
deriving DecidableEq, Repr

/-- Outcome of the polling loop, tagged with the elapsed time (seconds
since polling started) at which the loop exited. -/
inductive AwaitOutcome where
  | timedOut (t : Nat)
  | serverError (t : Nat)
  | completedAt (t : Nat)
deriving DecidableEq, Repr

/-- Embeds the `while True` polling loop of `await_result` (lines
155-183): at iteration `k` (elapsed time `k * sleep`), first the
wall-clock guard `time.time() - start_time > timeout_s` fires the timeout
error, otherwise the poll response is inspected for the `error` and
`completed` statuses, otherwise the loop sleeps and repeats.  `fuel`
bounds the recursion and is chosen large enough below. -/
def await_loop (status : Nat → PollStatus) (timeout sleep : Nat) :
    Nat → Nat → Option AwaitOutcome
  | 0, _ => none
  | fuel + 1, k =>
      if timeout < k * sleep then some (AwaitOutcome.timedOut (k * sleep))
      else
        match status k with
        | PollStatus.errorStatus => some (AwaitOutcome.serverError (k * sleep))
        | PollStatus.completed => some (AwaitOutcome.completedAt (k * sleep))
        | PollStatus.running => await_loop status timeout sleep fuel (k + 1)

/-- The polling loop started at iteration 0 with sufficient fuel: when
`0 < sleep`, the loop needs at most `timeout / sleep + 2 ≤ timeout + 2`
iterations before the timeout guard fires. -/
def await_result_outcome (status : Nat → PollStatus) (timeout sleep : Nat) :
    Option AwaitOutcome :=
  await_loop status timeout sleep (timeout + 2) 0

/-! Per-document retry loop: `process_pdf` (`process_inbox.py` lines
19-44).  Attempt `k` stands for the `pdf_to_txt` call in iteration `k`
of the `while` loop; a `BadZipfile` raised by a corrupt download is the
`Except.error` case, after which the loop sleeps 5 seconds and retries.
As in the polling model, attempts are instantaneous and iteration `k`
happens at elapsed time `k * sleep`. -/

/-- Observable outcome of `process_pdf` for one document: either the
final text was written to the fulltext artifact and the PDF archived
(the `break` path of lines 33-37), or the loop exhausted its wall-clock
budget without a successful attempt. -/
inductive PipeOutcome where
  | wrote (text : List Char)
  | gaveUp
deriving DecidableEq, Repr

/-- Embeds the `while time.time() - start_time < timeout` retry loop of
`process_pdf` (lines 30-39). -/
def process_pdf_loop (attempt : Nat → Except Unit (List Char)) (timeout sleep : Nat) :
    Nat → Nat → PipeOutcome
  | 0, _ => PipeOutcome.gaveUp
  | fuel + 1, k =>
      if k * sleep < timeout then
        match attempt k with
        | Except.ok text => PipeOutcome.wrote text
        | Except.error _ => process_pdf_loop attempt timeout sleep fuel (k + 1)
      else PipeOutcome.gaveUp

/-- The retry loop started at iteration 0 with sufficient fuel (when
`0 < sleep` at most `timeout` iterations satisfy `k * sleep < timeout`). -/
def process_pdf_model (attempt : Nat → Except Unit (List Char))
    (timeout sleep : Nat) : PipeOutcome :=
  process_pdf_loop attempt timeout sleep (timeout + 1) 0

/-! Base64 and the download integrity check: `await_result` stores
`zip_hash = sha256(content)` and `zip_b64 = b64encode(content)` (`core.py`
lines 192-193); `parse_result` decodes and re-hashes (lines 223-224).
`base64`/`hashlib` are Python standard library collaborators: base64 is
embedded concretely (standard alphabet, `=` padding), the hash is an
arbitrary deterministic function of the byte stream. -/

/-- Character of one six-bit group in the standard base64 alphabet
`A-Z a-z 0-9 + /`. -/
def b64charOf (n : Nat) : Char :=
  if n < 26 then Char.ofNat (65 + n)
  else if n < 52 then Char.ofNat (97 + (n - 26))
  else if n < 62 then Char.ofNat (48 + (n - 52))
  else if n = 62 then '+'
  else '/'

/-- Six-bit value of a standard-alphabet base64 character. -/
def b64valOf (c : Char) : Nat :=
  if 'A' ≤ c ∧ c ≤ 'Z' then c.toNat - 65
  else if 'a' ≤ c ∧ c ≤ 'z' then c.toNat - 97 + 26
  else if '0' ≤ c ∧ c ≤ '9' then c.toNat - 48 + 52
  else if c = '+' then 62
  else 63

/-- Embeds `base64.b64encode` on a byte stream (values below 256): three
bytes become four alphabet characters; one or two trailing bytes are
encoded with `==` or `=` padding. -/
def b64encode : List Nat → List Char
  | [] => []
  | [b0] => [b64charOf (b0 / 4), b64charOf (b0 % 4 * 16), '=', '=']
  | [b0, b1] =>
      [b64charOf (b0 / 4), b64charOf (b0 % 4 * 16 + b1 / 16), b64charOf (b1 % 16 * 4), '=']
  | b0 :: b1 :: b2 :: rest =>
      b64charOf (b0 / 4) :: b64charOf (b0 % 4 * 16 + b1 / 16) ::
        b64charOf (b1 % 16 * 4 + b2 / 64) :: b64charOf (b2 % 64) :: b64encode rest

/-- Embeds `base64.b64decode` on well-formed input: four characters yield
three bytes, with `=` padding cutting the final group to one or two
bytes. -/
def b64decode : List Char → List Nat
  | c0 :: c1 :: c2 :: c3 :: rest =>
      if c2 = '=' then [b64valOf c0 * 4 + b64valOf c1 / 16]
      else if c3 = '=' then
        [b64valOf c0 * 4 + b64valOf c1 / 16, b64valOf c1 % 16 * 16 + b64valOf c2 / 4]
      else
        (b64valOf c0 * 4 + b64valOf c1 / 16) ::
          (b64valOf c1 % 16 * 16 + b64valOf c2 / 4) ::
          (b64valOf c2 % 4 * 64 + b64valOf c3) :: b64decode rest
  | _ => []

/-- Model of the `MathpixResult` pydantic object (`core.py` lines 60-66),
restricted to the fields the verified code paths read. -/
structure MathpixResultM where
  pdf_id : Option (List Char) := none
  zip_b64 : Option (List Char) := none
  zip_hash : Option (List Char) := none
  error : Option (List Char) := none
deriving DecidableEq, Repr

/-- Embeds the download bookkeeping of `await_result` lines 192-193:
hash the downloaded bytes, then store their base64 encoding.  `hashHex`
stands for `hashlib.sha256(...).hexdigest()`, a deterministic function of
the bytes. -/
def store_download (hashHex : List Nat → List Char) (content : List Nat)
    (r : MathpixResultM) : MathpixResultM :=
  { r with zip_hash := some (hashHex content), zip_b64 := some (b64encode content) }

/-- Embeds `await_result` (`core.py` lines 135-198) end to end: an
incoming error is cleared (lines 149-151), the polling loop runs, a
timeout or server error is recorded in `.error`, and on completion the
download is stored.  The `none` fuel case cannot occur for positive
`sleep` but conservatively records an error as well. -/
def await_result (status : Nat → PollStatus) (hashHex : List Nat → List Char)
    (content : List Nat) (timeout sleep : Nat) (r : MathpixResultM) : MathpixResultM :=
  let r0 := { r with error := none }
  match await_result_outcome status timeout sleep with
  | some (AwaitOutcome.timedOut _) =>
      { r0 with error := some ("Processing has exceeded the limit.".data) }
  | some (AwaitOutcome.serverError _) =>
      { r0 with
          error := some ("An error occurred during processing on the server side.".data) }
  | some (AwaitOutcome.completedAt _) => store_download hashHex content r0
  | none => { r0 with error := some ("polling loop fuel exhausted".data) }

/-- Embeds the integrity assertions at the head of `parse_result`
(`core.py` lines 220-224): `zip_b64` must be present, and the sha256 of
the decoded bytes must equal the stored `zip_hash`. -/
def integrity_ok (hashHex : List Nat → List Char) (r : MathpixResultM) : Bool :=
  match r.zip_b64, r.zip_hash with
  | some zb, some zh => hashHex (b64decode zb) == zh
  | _, _ => false

/-! Locating the `.tex` entry in the downloaded archive:
`fetch_tex_filename` (`latex_helpers.py` lines 26-35), the assertions at
the head of `parse_result` (`core.py` lines 220-230), and the inline
equivalent in `pdf_to_txt` (`pdf_parser/pdf_processor.py` lines 109-116). -/

/-- Embeds `fetch_tex_filename`: the first archive entry name ending in
`.tex`, if any (`pdf_to_txt` lines 109-113 contain the identical loop). -/
def fetch_tex_filename : List (List Char) → Option (List Char)
  | [] => none
  | f :: fs => if List.isSuffixOf ".tex".data f then some f else fetch_tex_filename fs

/-- The assertion failures at the head of `parse_result`: `zip_b64`
missing (line 220), hash mismatch (line 224), no `.tex` entry (line
229). -/
inductive ParseError where
  | missingZip
  | corruptStorage
  | noTexFile
deriving DecidableEq, Repr

/-- Embeds `parse_result` lines 220-230: assert the base64 payload is
present, assert the decoded bytes hash to the stored `zip_hash`, then
locate the `.tex` entry, whose absence is a fatal assertion error. -/
def parse_result_tex (hashHex : List Nat → List Char) (namelist : List (List Char))
    (r : MathpixResultM) : Except ParseError (List Char) :=
  match r.zip_b64 with
  | none => Except.error ParseError.missingZip
  | some zb =>
      if r.zip_hash == some (hashHex (b64decode zb)) then
        match fetch_tex_filename namelist with
        | none => Except.error ParseError.noTexFile
        | some f => Except.ok f
      else Except.error ParseError.corruptStorage

/-- Embeds the return value of `pdf_to_txt` as a function of the archive
entry list: when no entry ends in `.tex`, the function returns the
literal sentinel string as its result (line 116) — a normal return, not
an exception; otherwise it returns the assembled document text (the
cleanup passes applied after assembly are not modelled). -/
def pdf_to_txt_text (tableDesc : List Char → List Char)
    (imgDesc : Option (List Char) → List Char) (namelist : List (List Char))
    (texContent : List Char) (nodes : List LNode) : List Char :=
  match fetch_tex_filename namelist with
  | none => "No .tex file found in the zip archive.".data
  | some _ => pdf_to_txt_assembled tableDesc imgDesc texContent nodes

/-! Theorems: helper lemmas, claim theorems, witnesses and
counterexamples. -/

theorem chunksWithin_weaken {l : List LatexChunk} :
    ∀ {lo hi lo' hi' : Nat}, lo' ≤ lo → hi ≤ hi' →
      chunksWithin lo hi l = true → chunksWithin lo' hi' l = true := by
  induction l with
  | nil => intro lo hi lo' hi' _ _ _; rfl
  | cons c cs ih =>
      intro lo hi lo' hi' hlo hhi h
      simp only [chunksWithin, Bool.and_eq_true, decide_eq_true_eq] at h ⊢
      obtain ⟨⟨⟨h1, h2⟩, h3⟩, h4⟩ := h
      exact ⟨⟨⟨le_trans hlo h1, h2⟩, le_trans h3 hhi⟩, ih le_rfl hhi h4⟩

theorem chunksWithin_append {xs : List LatexChunk} :
    ∀ {ys : List LatexChunk} {lo m hi : Nat}, lo ≤ m → m ≤ hi →
      chunksWithin lo m xs = true → chunksWithin m hi ys = true →
      chunksWithin lo hi (xs ++ ys) = true := by
  induction xs with
  | nil =>
      intro ys lo m hi hlom hmhi _ hys
      exact chunksWithin_weaken hlom le_rfl hys
  | cons c cs ih =>
      intro ys lo m hi hlom hmhi hxs hys
      simp only [chunksWithin, Bool.and_eq_true, decide_eq_true_eq] at hxs
      obtain ⟨⟨⟨h1, h2⟩, h3⟩, h4⟩ := hxs
      simp only [List.cons_append, chunksWithin, Bool.and_eq_true, decide_eq_true_eq]
      exact ⟨⟨⟨h1, h2⟩, le_trans h3 hmhi⟩, ih h3 hmhi h4 hys⟩

theorem extract_chunks_within (ns : List LNode) :
    ∀ lo hi : Nat, nodesWF lo hi ns = true →
      chunksWithin lo hi (extract_chunks ns) = true := by
  induction ns using extract_chunks.induct with
  | case1 => intro lo hi _; simp [extract_chunks, chunksWithin]
  | case2 p l cs rest ih =>
      intro lo hi h
      simp only [nodesWF, nodeWF, LNode.pos, LNode.nlen, Bool.and_eq_true,
        decide_eq_true_eq] at h
      obtain ⟨⟨⟨⟨h1, h2⟩, h3⟩, _⟩, h5⟩ := h
      simp only [extract_chunks, if_pos rfl, chunksWithin, Bool.and_eq_true,
        decide_eq_true_eq]
      exact ⟨⟨⟨h1, Nat.lt_add_of_pos_right h2⟩, h3⟩, ih _ _ h5⟩
  | case3 name p l cs rest hne ihcs ihrest =>
      intro lo hi h
      simp only [nodesWF, nodeWF, LNode.pos, LNode.nlen, Bool.and_eq_true,
        decide_eq_true_eq] at h
      obtain ⟨⟨⟨⟨h1, _⟩, h3⟩, h4⟩, h5⟩ := h
      simp only [extract_chunks, if_neg hne]
      exact chunksWithin_weaken h1 le_rfl
        (chunksWithin_append (Nat.le_add_right p l) h3 (ihcs _ _ h4) (ihrest _ _ h5))
  | case4 p l arg rest ih =>
      intro lo hi h
      simp only [nodesWF, nodeWF, LNode.pos, LNode.nlen, Bool.and_eq_true,
        decide_eq_true_eq] at h
      obtain ⟨⟨⟨h1, h2⟩, h3⟩, h5⟩ := h
      simp only [extract_chunks, if_pos rfl, chunksWithin, Bool.and_eq_true,
        decide_eq_true_eq]
      exact ⟨⟨⟨h1, Nat.lt_add_of_pos_right h2⟩, h3⟩, ih _ _ h5⟩
  | case5 name p l arg rest hne ih =>
      intro lo hi h
      simp only [nodesWF, nodeWF, LNode.pos, LNode.nlen, Bool.and_eq_true,
        decide_eq_true_eq] at h
      obtain ⟨⟨⟨h1, _⟩, _⟩, h5⟩ := h
      simp only [extract_chunks, if_neg hne]
      exact chunksWithin_weaken (le_trans h1 (Nat.le_add_right p l)) le_rfl (ih _ _ h5)
  | case6 p l cs rest ihcs ihrest =>
      intro lo hi h
      simp only [nodesWF, nodeWF, LNode.pos, LNode.nlen, Bool.and_eq_true,
        decide_eq_true_eq] at h
      obtain ⟨⟨⟨⟨h1, _⟩, h3⟩, h4⟩, h5⟩ := h
      simp only [extract_chunks]
      exact chunksWithin_weaken h1 le_rfl
        (chunksWithin_append (Nat.le_add_right p l) h3 (ihcs _ _ h4) (ihrest _ _ h5))
  | case7 p l rest ih =>
      intro lo hi h
      simp only [nodesWF, nodeWF, LNode.pos, LNode.nlen, Bool.and_eq_true,
        decide_eq_true_eq] at h
      obtain ⟨⟨⟨h1, _⟩, _⟩, h5⟩ := h
      simp only [extract_chunks]
      exact chunksWithin_weaken (le_trans h1 (Nat.le_add_right p l)) le_rfl (ih _ _ h5)

theorem fill_gaps_tiles {l : List LatexChunk} :
    ∀ {lo hi : Nat}, lo ≤ hi → chunksWithin lo hi l = true →
      chunksTile lo hi (fill_gaps lo hi l) = true := by
  induction l with
  | nil =>
      intro lo hi hle _
      by_cases hlt : lo < hi
      · simp [fill_gaps, if_pos hlt, chunksTile, hlt]
      · have heq : lo = hi := le_antisymm hle (le_of_not_lt hlt)
        simp [fill_gaps, if_neg hlt, chunksTile, heq]
  | cons c cs ih =>
      intro lo hi hle h
      simp only [chunksWithin, Bool.and_eq_true, decide_eq_true_eq] at h
      obtain ⟨⟨⟨h1, h2⟩, h3⟩, h4⟩ := h
      by_cases hlt : lo < c.start
      · have hrec := ih h3 h4
        simp [fill_gaps, if_pos hlt, chunksTile, hlt, h2, hrec]
      · have heq : c.start = lo := le_antisymm (le_of_not_lt hlt) h1
        simp only [fill_gaps, if_neg hlt, List.nil_append, chunksTile,
          Bool.and_eq_true, decide_eq_true_eq]
        exact ⟨⟨heq, h2⟩, ih h3 h4⟩

theorem chunksTile_map_set_raw (s : List Char) {l : List LatexChunk} :
    ∀ {lo hi : Nat}, chunksTile lo hi (l.map (set_raw s)) = chunksTile lo hi l := by
  induction l with
  | nil => intro lo hi; rfl
  | cons c cs ih => intro lo hi; simp [chunksTile, set_raw, ih]

theorem get_latex_chunks_tile_aux (s : List Char) (nodes : List LNode)
    (h : nodesWF 0 s.length nodes = true) :
    chunksTile 0 s.length (get_latex_chunks s nodes) = true := by
  unfold get_latex_chunks
  rw [chunksTile_map_set_raw]
  exact fill_gaps_tiles (Nat.zero_le _) (extract_chunks_within _ _ _ h)

/-- Claim C1: for every input string whose parse tree is well formed, the
chunk list returned by `get_latex_chunks` has `[start, stop)` spans that
are contiguous, non-overlapping, in ascending source order, and union
exactly `[0, s.length)` (this is what `chunksTile 0 s.length` states). -/
theorem C1_get_latex_chunks_tiles (s : List Char) (nodes : List LNode)
    (h : nodesWF 0 s.length nodes = true) :
    chunksTile 0 s.length (get_latex_chunks s nodes) = true :=
  get_latex_chunks_tile_aux s nodes h

/-- Witness for C1 at the concrete documented example input. -/
theorem C1_witness :
    nodesWF 0 ("Intro text. \\begin{tabular}{c}1\\end{tabular} More text.".data.length)
      [LNode.charsNode 0 12, LNode.envNode "tabular".data 12 32 [LNode.charsNode 30 1],
        LNode.charsNode 44 11] = true ∧
    chunksTile 0 ("Intro text. \\begin{tabular}{c}1\\end{tabular} More text.".data.length)
      (get_latex_chunks "Intro text. \\begin{tabular}{c}1\\end{tabular} More text.".data
        [LNode.charsNode 0 12, LNode.envNode "tabular".data 12 32 [LNode.charsNode 30 1],
          LNode.charsNode 44 11]) = true :=
  ⟨by decide, C1_get_latex_chunks_tiles _ _ (by decide)⟩

theorem slice_self (s : List Char) (a : Nat) : slice s a a = [] := by
  apply List.drop_eq_nil_of_le
  simp [List.length_take]

theorem slice_append (s : List Char) {a b c : Nat} (hab : a ≤ b) (hbc : b ≤ c) :
    slice s a b ++ slice s b c = slice s a c := by
  unfold slice
  have htake : s.take b = (s.take c).take b := by
    rw [List.take_take, Nat.min_eq_left hbc]
  rw [htake]
  rw [List.drop_take b a (s.take c)]
  have hdrop : List.drop b (s.take c) = List.drop (b - a) (List.drop a (s.take c)) := by
    rw [List.drop_drop, Nat.add_sub_cancel' hab]
  rw [hdrop, List.take_append_drop]

theorem chunksTile_le {l : List LatexChunk} :
    ∀ {lo hi : Nat}, chunksTile lo hi l = true → lo ≤ hi := by
  induction l with
  | nil =>
      intro lo hi h
      simp only [chunksTile, decide_eq_true_eq] at h
      exact le_of_eq h
  | cons c cs ih =>
      intro lo hi h
      simp only [chunksTile, Bool.and_eq_true, decide_eq_true_eq] at h
      obtain ⟨⟨h1, h2⟩, h3⟩ := h
      exact le_trans (le_of_lt (h1 ▸ h2)) (ih h3)

theorem tile_concat_raw (s : List Char) {l : List LatexChunk} :
    ∀ {lo hi : Nat}, chunksTile lo hi l = true →
      ((l.map (set_raw s)).map LatexChunk.raw_content).flatten = slice s lo hi := by
  induction l with
  | nil =>
      intro lo hi h
      simp only [chunksTile, decide_eq_true_eq] at h
      simp [h, slice_self]
  | cons c cs ih =>
      intro lo hi h
      simp only [chunksTile, Bool.and_eq_true, decide_eq_true_eq] at h
      obtain ⟨⟨h1, h2⟩, h3⟩ := h
      simp only [List.map_cons, List.flatten_cons, set_raw, ih h3]
      rw [h1]
      exact slice_append s (le_of_lt (h1 ▸ h2)) (chunksTile_le h3)

theorem get_latex_chunks_concat_aux (s : List Char) (nodes : List LNode)
    (h : nodesWF 0 s.length nodes = true) :
    ((get_latex_chunks s nodes).map LatexChunk.raw_content).flatten = s := by
  have htile : chunksTile 0 s.length (fill_gaps 0 s.length (extract_chunks nodes)) = true :=
    fill_gaps_tiles (Nat.zero_le _) (extract_chunks_within _ _ _ h)
  unfold get_latex_chunks
  rw [tile_concat_raw s htile]
  unfold slice
  rw [List.take_length, List.drop_zero]

/-- Claim C2: for every input string whose parse tree is well formed,
concatenating the `raw_content` fields of the chunks returned by
`get_latex_chunks`, in order, reproduces the input string exactly. -/
theorem C2_get_latex_chunks_concat (s : List Char) (nodes : List LNode)
    (h : nodesWF 0 s.length nodes = true) :
    ((get_latex_chunks s nodes).map LatexChunk.raw_content).flatten = s :=
  get_latex_chunks_concat_aux s nodes h

/-- Witness for C2 at the concrete documented example input. -/
theorem C2_witness :
    nodesWF 0 ("Intro text. \\begin{tabular}{c}1\\end{tabular} More text.".data.length)
      [LNode.charsNode 0 12, LNode.envNode "tabular".data 12 32 [LNode.charsNode 30 1],
        LNode.charsNode 44 11] = true ∧
    ((get_latex_chunks "Intro text. \\begin{tabular}{c}1\\end{tabular} More text.".data
        [LNode.charsNode 0 12, LNode.envNode "tabular".data 12 32 [LNode.charsNode 30 1],
          LNode.charsNode 44 11]).map LatexChunk.raw_content).flatten =
      "Intro text. \\begin{tabular}{c}1\\end{tabular} More text.".data :=
  ⟨by decide, C2_get_latex_chunks_concat _ _ (by decide)⟩

/-- Counterexample to claim C9 as stated: on the empty input string (with
its empty parse tree) `get_latex_chunks` returns the empty list, not a
single text chunk, because the trailing `last_pos < len(latex_str)` guard
is false when the length is zero. -/
theorem C9_counterexample :
    (get_latex_chunks ([] : List Char) []).length ≠ 1 := by
  simp [get_latex_chunks, extract_chunks, fill_gaps]

/-- Claim C9, amended: for every nonempty input string on which the
segmenter finds zero table and zero image nodes, `get_latex_chunks`
returns exactly one chunk, of type text, covering `[0, len(input))`; the
empty input instead yields an empty chunk list. -/
theorem C9_single_text_chunk (s : List Char) (nodes : List LNode)
    (hz : extract_chunks nodes = []) (hne : s ≠ []) :
    get_latex_chunks s nodes =
      [{ start := 0, stop := s.length, type := LatexChunkType.text,
         filename := none, raw_content := s, processed_content := [] }] := by
  have hpos : 0 < s.length := List.length_pos.mpr hne
  unfold get_latex_chunks
  rw [hz]
  simp only [fill_gaps, if_pos hpos, List.map_cons, List.map_nil, set_raw]
  unfold slice
  rw [List.take_length, List.drop_zero]

/-- Witness for C9 (amended) at a concrete two-character input. -/
theorem C9_witness :
    extract_chunks [LNode.charsNode 0 2] = [] ∧ "ab".data ≠ [] ∧
    get_latex_chunks "ab".data [LNode.charsNode 0 2] =
      [{ start := 0, stop := 2, type := LatexChunkType.text,
         filename := none, raw_content := "ab".data, processed_content := [] }] :=
  ⟨by simp [extract_chunks], by simp,
    C9_single_text_chunk "ab".data [LNode.charsNode 0 2] (by simp [extract_chunks]) (by simp)⟩

/-- Counterexample to claim C3 as stated: with the documented input and a
table converter returning `"Col: 1"`, the ordered concatenation of
processed chunk contents produced by `parse_result` is NOT the claimed
string, because the f-strings of `core.py` lines 244-246 insert an extra
newline between each delimiter and the converted table text. -/
theorem C3_counterexample :
    ¬ parse_result_reassembled (fun _ => "Col: 1".data) (fun _ => [])
        "Intro text. \\begin{tabular}{c}1\\end{tabular} More text.".data
        [LNode.charsNode 0 12, LNode.envNode "tabular".data 12 32 [LNode.charsNode 30 1],
          LNode.charsNode 44 11] =
      "Intro text. \n<===TABLE START===>\nCol: 1\n<===TABLE END===>\n More text.".data := by
  have h : parse_result_reassembled (fun _ => "Col: 1".data) (fun _ => [])
      "Intro text. \\begin{tabular}{c}1\\end{tabular} More text.".data
      [LNode.charsNode 0 12, LNode.envNode "tabular".data 12 32 [LNode.charsNode 30 1],
        LNode.charsNode 44 11] =
      "Intro text. \n<===TABLE START===>\n\nCol: 1\n\n<===TABLE END===>\n More text.".data := by
    simp [parse_result_reassembled, get_latex_chunks, extract_chunks, fill_gaps, set_raw,
      slice, process_chunk, TABLE_START_DELIMITER, TABLE_END_DELIMITER]
  rw [h]
  decide

/-- Claim C3, amended: on the documented input with the table converter
returning `"Col: 1"`, the pre-cleanup reassembled text of `parse_result`
equals `"Intro text. \n<===TABLE START===>\n\nCol: 1\n\n<===TABLE END===>\n More text."`
(an extra newline on each side of the converter output inside the
delimiters), while the legacy `pdf_to_txt` assembly yields exactly the
originally claimed string
`"Intro text. \n<===TABLE START===>\nCol: 1\n<===TABLE END===>\n More text."`. -/
theorem C3_reassembly :
    parse_result_reassembled (fun _ => "Col: 1".data) (fun _ => [])
        "Intro text. \\begin{tabular}{c}1\\end{tabular} More text.".data
        [LNode.charsNode 0 12, LNode.envNode "tabular".data 12 32 [LNode.charsNode 30 1],
          LNode.charsNode 44 11] =
      "Intro text. \n<===TABLE START===>\n\nCol: 1\n\n<===TABLE END===>\n More text.".data ∧
    pdf_to_txt_assembled (fun _ => "Col: 1".data) (fun _ => [])
        "Intro text. \\begin{tabular}{c}1\\end{tabular} More text.".data
        [LNode.charsNode 0 12, LNode.envNode "tabular".data 12 32 [LNode.charsNode 30 1],
          LNode.charsNode 44 11] =
      "Intro text. \n<===TABLE START===>\nCol: 1\n<===TABLE END===>\n More text.".data := by
  constructor
  · simp [parse_result_reassembled, get_latex_chunks, extract_chunks, fill_gaps, set_raw,
      slice, process_chunk, TABLE_START_DELIMITER, TABLE_END_DELIMITER]
  · simp [pdf_to_txt_assembled, find_latex_pieces, fill_text_pieces, assemble_pieces,
      slice, TABLE_START_DELIMITER, TABLE_END_DELIMITER]

theorem find?_append_singleton {p : CacheRow → Bool} {l : List CacheRow} {r : CacheRow}
    (h : l.find? p = none) (hp : p r = true) : (l ++ [r]).find? p = some r := by
  induction l with
  | nil => simp [List.find?, hp]
  | cons a l ih =>
      simp only [List.cons_append, List.find?_cons] at h ⊢
      cases hpa : p a with
      | true => simp [hpa] at h
      | false =>
          simp only [hpa] at h ⊢
          exact ih h

theorem lookup_insertRow_self (db : CacheDB) (r : CacheRow)
    (hmiss : db.lookup r.md5 = none) :
    (db.insertRow r).lookup r.md5 = some r.mathpix_pdf_id := by
  unfold CacheDB.lookup at hmiss ⊢
  unfold CacheDB.insertRow
  simp only [Option.map_eq_none'] at hmiss
  rw [find?_append_singleton hmiss (by simp)]
  rfl

/-- Claim C4: submitting the same byte content twice, under two possibly
different filenames, performs exactly one external submission in total,
both calls return the same job identifier, and the second call is a cache
hit that performs no submission and leaves the cache unchanged. -/
theorem C4_cache_idempotent (md5fn : List Nat → List Char) (content : List Nat)
    (f1 f2 : List Char) (r1 r2 : Option (List Char)) (db : CacheDB)
    (hmiss : db.lookup (md5fn content) = none) :
    (get_mathpix_pdf_id md5fn content f2 r2
        (get_mathpix_pdf_id md5fn content f1 r1 db).db).pdf_id =
      (get_mathpix_pdf_id md5fn content f1 r1 db).pdf_id ∧
    (get_mathpix_pdf_id md5fn content f1 r1 db).submissions +
      (get_mathpix_pdf_id md5fn content f2 r2
        (get_mathpix_pdf_id md5fn content f1 r1 db).db).submissions = 1 ∧
    (get_mathpix_pdf_id md5fn content f2 r2
        (get_mathpix_pdf_id md5fn content f1 r1 db).db).db =
      (get_mathpix_pdf_id md5fn content f1 r1 db).db := by
  have hhit :
      ((db.insertRow
        { md5 := md5fn content, filename := f1, mathpix_pdf_id := r1 }).lookup
          (md5fn content)) = some r1 :=
    lookup_insertRow_self db { md5 := md5fn content, filename := f1, mathpix_pdf_id := r1 }
      hmiss
  simp [get_mathpix_pdf_id, hmiss, hhit]

/-- Witness for C4 at a concrete content, two filenames and an empty
cache. -/
theorem C4_witness :
    (⟨[]⟩ : CacheDB).lookup ((fun _ => "h".data) [1, 2]) = none ∧
    ((get_mathpix_pdf_id (fun _ => "h".data) [1, 2] "b.pdf".data (some "id2".data)
        (get_mathpix_pdf_id (fun _ => "h".data) [1, 2] "a.pdf".data (some "id1".data)
          ⟨[]⟩).db).pdf_id =
      (get_mathpix_pdf_id (fun _ => "h".data) [1, 2] "a.pdf".data (some "id1".data)
        ⟨[]⟩).pdf_id ∧
    (get_mathpix_pdf_id (fun _ => "h".data) [1, 2] "a.pdf".data (some "id1".data)
        ⟨[]⟩).submissions +
      (get_mathpix_pdf_id (fun _ => "h".data) [1, 2] "b.pdf".data (some "id2".data)
        (get_mathpix_pdf_id (fun _ => "h".data) [1, 2] "a.pdf".data (some "id1".data)
          ⟨[]⟩).db).submissions = 1 ∧
    (get_mathpix_pdf_id (fun _ => "h".data) [1, 2] "b.pdf".data (some "id2".data)
        (get_mathpix_pdf_id (fun _ => "h".data) [1, 2] "a.pdf".data (some "id1".data)
          ⟨[]⟩).db).db =
      (get_mathpix_pdf_id (fun _ => "h".data) [1, 2] "a.pdf".data (some "id1".data)
        ⟨[]⟩).db) :=
  ⟨by decide, C4_cache_idempotent (fun _ => "h".data) [1, 2] "a.pdf".data "b.pdf".data
    (some "id1".data) (some "id2".data) ⟨[]⟩ (by decide)⟩

/-- Counterexample to claim C5 as stated: on a cache miss with a failed
external submission (`_process_pdf_with_mathpix` returns `None`), the
code still executes the unconditional INSERT of lines 59-60, so the cache
state IS changed. -/
theorem C5_counterexample :
    (get_mathpix_pdf_id (fun _ => "h".data) [0] "a.pdf".data none ⟨[]⟩).db ≠
      (⟨[]⟩ : CacheDB) := by
  decide

/-- Claim C5, amended: on a cache miss in which the external submission
fails, `get_mathpix_pdf_id` nevertheless writes one cache entry, mapping
the content hash and filename to a NULL job identifier, and returns no
identifier. -/
theorem C5_failed_submission_cached (md5fn : List Nat → List Char)
    (content : List Nat) (basename : List Char) (db : CacheDB)
    (hmiss : db.lookup (md5fn content) = none) :
    (get_mathpix_pdf_id md5fn content basename none db).db =
      db.insertRow { md5 := md5fn content, filename := basename, mathpix_pdf_id := none } ∧
    (get_mathpix_pdf_id md5fn content basename none db).pdf_id = none := by
  simp [get_mathpix_pdf_id, hmiss]

/-- Witness for C5 (amended) at a concrete content and empty cache. -/
theorem C5_witness :
    (⟨[]⟩ : CacheDB).lookup ((fun _ => "h".data) [0]) = none ∧
    ((get_mathpix_pdf_id (fun _ => "h".data) [0] "a.pdf".data none ⟨[]⟩).db =
      CacheDB.insertRow ⟨[]⟩
        { md5 := (fun _ => "h".data) [0], filename := "a.pdf".data,
          mathpix_pdf_id := none } ∧
    (get_mathpix_pdf_id (fun _ => "h".data) [0] "a.pdf".data none ⟨[]⟩).pdf_id = none) :=
  ⟨by decide,
    C5_failed_submission_cached (fun _ => "h".data) [0] "a.pdf".data ⟨[]⟩ (by decide)⟩

theorem await_loop_timeout (status : Nat → PollStatus) (timeout sleep : Nat)
    (hs : 0 < sleep) (hnever : ∀ k, status k = PollStatus.running) :
    ∀ fuel k, k ≤ timeout / sleep + 1 → timeout / sleep + 1 - k < fuel →
      await_loop status timeout sleep fuel k =
        some (AwaitOutcome.timedOut ((timeout / sleep + 1) * sleep)) := by
  intro fuel
  induction fuel with
  | zero => intro k _ hf; omega
  | succ fuel ih =>
      intro k hk hf
      by_cases hto : timeout < k * sleep
      · have hkK : timeout / sleep + 1 ≤ k := by
          by_contra hlt
          push_neg at hlt
          have : k ≤ timeout / sleep := by omega
          have : k * sleep ≤ timeout := (Nat.le_div_iff_mul_le hs).mp this
          omega
        have hkeq : k = timeout / sleep + 1 := le_antisymm hk hkK
        subst hkeq
        simp only [await_loop, if_pos hto]
      · have hkle : k * sleep ≤ timeout := by omega
        have hkK : k ≤ timeout / sleep := (Nat.le_div_iff_mul_le hs).mpr hkle
        simp only [await_loop, if_neg hto, hnever k]
        exact ih (k + 1) (by omega) (by omega)

/-- Claim C6: if the polled service never reports a completed (or error)
status, the polling loop of `await_result` exits with the timeout error
at elapsed time `(timeout / sleep + 1) * sleep`, which is strictly after
the configured timeout and at most the timeout plus one poll interval. -/
theorem C6_timeout (status : Nat → PollStatus) (timeout sleep : Nat)
    (hs : 0 < sleep) (hnever : ∀ k, status k = PollStatus.running) :
    await_result_outcome status timeout sleep =
      some (AwaitOutcome.timedOut ((timeout / sleep + 1) * sleep)) ∧
    timeout < (timeout / sleep + 1) * sleep ∧
    (timeout / sleep + 1) * sleep ≤ timeout + sleep := by
  refine ⟨?_, ?_, ?_⟩
  · exact await_loop_timeout status timeout sleep hs hnever (timeout + 2) 0
      (Nat.zero_le _)
      (by
        have h := Nat.div_le_self timeout sleep
        rw [Nat.sub_zero]
        exact Nat.succ_lt_succ (Nat.lt_succ_of_le h))
  · have h1 : ¬ (timeout / sleep + 1) * sleep ≤ timeout := by
      intro hle
      have := (Nat.le_div_iff_mul_le hs).mpr hle
      omega
    exact Nat.lt_of_not_le h1
  · have h2 : timeout / sleep * sleep ≤ timeout := Nat.div_mul_le_self _ _
    calc (timeout / sleep + 1) * sleep
        = timeout / sleep * sleep + sleep := by ring
      _ ≤ timeout + sleep := Nat.add_le_add_right h2 sleep

/-- Witness for C6 with a service that always reports a running status,
`timeout = 7` and `sleep = 3`: the loop times out at 9 seconds. -/
theorem C6_witness :
    0 < 3 ∧ (∀ k : Nat, (fun _ : Nat => PollStatus.running) k = PollStatus.running) ∧
    (await_result_outcome (fun _ => PollStatus.running) 7 3 =
        some (AwaitOutcome.timedOut ((7 / 3 + 1) * 3)) ∧
      7 < (7 / 3 + 1) * 3 ∧ (7 / 3 + 1) * 3 ≤ 7 + 3) :=
  ⟨by decide, fun _ => rfl,
    C6_timeout (fun _ => PollStatus.running) 7 3 (by decide) (fun _ => rfl)⟩

theorem process_pdf_loop_reaches (attempt : Nat → Except Unit (List Char))
    (timeout sleep j : Nat) (text : List Char)
    (hfail : ∀ i, i < j → attempt i = Except.error ())
    (hok : attempt j = Except.ok text) (hin : j * sleep < timeout) :
    ∀ fuel k, k ≤ j → j - k < fuel →
      process_pdf_loop attempt timeout sleep fuel k = PipeOutcome.wrote text := by
  intro fuel
  induction fuel with
  | zero => intro k _ hf; omega
  | succ fuel ih =>
      intro k hk hf
      have hkin : k * sleep < timeout :=
        lt_of_le_of_lt (Nat.mul_le_mul_right sleep hk) hin
      by_cases hkj : k = j
      · subst hkj
        simp [process_pdf_loop, if_pos hkin, hok]
      · have hklt : k < j := lt_of_le_of_ne hk hkj
        simp only [process_pdf_loop, if_pos hkin, hfail k hklt]
        exact ih (k + 1) (by omega) (by omega)

/-- Claim C8: if every download attempt before attempt `j` yields a
corrupt archive (`BadZipfile`), attempt `j` succeeds with text `text`,
and attempt `j` still falls inside the wall-clock budget, then
`process_pdf` writes `text` to the fulltext artifact and the caller
observes no error.  The claim's scenario is `j = 1`: first attempt
corrupt, second attempt valid. -/
theorem C8_corrupt_archive_retry (attempt : Nat → Except Unit (List Char))
    (timeout sleep j : Nat) (text : List Char) (hs : 0 < sleep)
    (hfail : ∀ i, i < j → attempt i = Except.error ())
    (hok : attempt j = Except.ok text) (hin : j * sleep < timeout) :
    process_pdf_model attempt timeout sleep = PipeOutcome.wrote text := by
  apply process_pdf_loop_reaches attempt timeout sleep j text hfail hok hin
  · exact Nat.zero_le j
  · have : j ≤ j * sleep := Nat.le_mul_of_pos_right j hs
    omega

/-- Witness for C8: the first download is corrupt, the second (at 5
seconds, inside the 60 second budget) is valid, and the pipeline writes
the recovered text. -/
theorem C8_witness :
    0 < 5 ∧
    (∀ i : Nat, i < 1 →
      (fun k : Nat => if k = 0 then (Except.error () : Except Unit (List Char))
        else Except.ok "doc".data) i = Except.error ()) ∧
    (fun k : Nat => if k = 0 then (Except.error () : Except Unit (List Char))
      else Except.ok "doc".data) 1 = Except.ok "doc".data ∧
    1 * 5 < 60 ∧
    process_pdf_model
      (fun k : Nat => if k = 0 then (Except.error () : Except Unit (List Char))
        else Except.ok "doc".data) 60 5 = PipeOutcome.wrote "doc".data :=
  ⟨by decide, by intro i hi; interval_cases i; rfl, rfl, by decide,
    C8_corrupt_archive_retry _ 60 5 1 "doc".data (by decide)
      (by intro i hi; interval_cases i; rfl) rfl (by decide)⟩

theorem b64valOf_b64charOf : ∀ n : Nat, n < 64 → b64valOf (b64charOf n) = n := by
  decide

theorem b64charOf_ne_pad : ∀ n : Nat, n < 64 → b64charOf n ≠ '=' := by
  decide

theorem b64_roundtrip : ∀ (bs : List Nat), (∀ b ∈ bs, b < 256) →
    b64decode (b64encode bs) = bs := by
  intro bs
  induction bs using b64encode.induct with
  | case1 => intro _; simp [b64encode, b64decode]
  | case2 b0 =>
      intro hb
      have hb0 : b0 < 256 := hb b0 (by simp)
      have h0 : b64valOf (b64charOf (b0 / 4)) = b0 / 4 :=
        b64valOf_b64charOf _ (by omega)
      have h1 : b64valOf (b64charOf (b0 % 4 * 16)) = b0 % 4 * 16 :=
        b64valOf_b64charOf _ (by omega)
      simp [b64encode, b64decode, h0, h1]
      omega
  | case3 b0 b1 =>
      intro hb
      have hb0 : b0 < 256 := hb b0 (by simp)
      have hb1 : b1 < 256 := hb b1 (by simp)
      have hne : b64charOf (b1 % 16 * 4) ≠ '=' :=
        b64charOf_ne_pad _ (by omega)
      have h0 : b64valOf (b64charOf (b0 / 4)) = b0 / 4 :=
        b64valOf_b64charOf _ (by omega)
      have h1 : b64valOf (b64charOf (b0 % 4 * 16 + b1 / 16)) = b0 % 4 * 16 + b1 / 16 :=
        b64valOf_b64charOf _ (by omega)
      have h2 : b64valOf (b64charOf (b1 % 16 * 4)) = b1 % 16 * 4 :=
        b64valOf_b64charOf _ (by omega)
      simp [b64encode, b64decode, hne, h0, h1, h2]
      constructor
      · omega
      · omega
  | case4 b0 b1 b2 rest ih =>
      intro hb
      have hb0 : b0 < 256 := hb b0 (by simp)
      have hb1 : b1 < 256 := hb b1 (by simp)
      have hb2 : b2 < 256 := hb b2 (by simp)
      have hrest : ∀ b ∈ rest, b < 256 := by
        intro b hbmem
        exact hb b (by simp [hbmem])
      have hne2 : b64charOf (b1 % 16 * 4 + b2 / 64) ≠ '=' :=
        b64charOf_ne_pad _ (by omega)
      have hne3 : b64charOf (b2 % 64) ≠ '=' :=
        b64charOf_ne_pad _ (by omega)
      have h0 : b64valOf (b64charOf (b0 / 4)) = b0 / 4 :=
        b64valOf_b64charOf _ (by omega)
      have h1 : b64valOf (b64charOf (b0 % 4 * 16 + b1 / 16)) = b0 % 4 * 16 + b1 / 16 :=
        b64valOf_b64charOf _ (by omega)
      have h2 : b64valOf (b64charOf (b1 % 16 * 4 + b2 / 64)) = b1 % 16 * 4 + b2 / 64 :=
        b64valOf_b64charOf _ (by omega)
      have h3 : b64valOf (b64charOf (b2 % 64)) = b2 % 64 :=
        b64valOf_b64charOf _ (by omega)
      simp [b64encode, b64decode, hne2, hne3, h0, h1, h2, h3, ih hrest]
      refine ⟨by omega, by omega, by omega⟩

/-- Claim C10: every `MathpixResult` that `await_result` returns with
`error = none` passes the integrity check at the head of `parse_result`:
decoding the stored base64 recovers the downloaded bytes, and their hash
equals the stored `zip_hash`, so the assertion's failure branch is
unreachable. -/
theorem C10_integrity (status : Nat → PollStatus) (hashHex : List Nat → List Char)
    (content : List Nat) (timeout sleep : Nat) (r : MathpixResultM)
    (hbytes : ∀ b ∈ content, b < 256)
    (herr : (await_result status hashHex content timeout sleep r).error = none) :
    integrity_ok hashHex (await_result status hashHex content timeout sleep r) = true := by
  cases houtcome : await_result_outcome status timeout sleep with
  | none => simp [await_result, houtcome] at herr
  | some outcome =>
      cases outcome with
      | timedOut t => simp [await_result, houtcome] at herr
      | serverError t => simp [await_result, houtcome] at herr
      | completedAt t =>
          simp [await_result, houtcome, store_download, integrity_ok,
            b64_roundtrip content hbytes]

/-- Witness for C10 with a service completing immediately and concrete
bytes spanning the padding cases. -/
theorem C10_witness :
    (∀ b ∈ [0, 255, 77, 3], b < 256) ∧
    ((await_result (fun _ => PollStatus.completed) (fun bs => (toString bs.length).data)
        [0, 255, 77, 3] 60 5 {}).error = none ∧
    integrity_ok (fun bs => (toString bs.length).data)
      (await_result (fun _ => PollStatus.completed) (fun bs => (toString bs.length).data)
        [0, 255, 77, 3] 60 5 {}) = true) :=
  ⟨by decide,
    by
      simp [await_result, await_result_outcome, await_loop, store_download],
    C10_integrity (fun _ => PollStatus.completed) (fun bs => (toString bs.length).data)
      [0, 255, 77, 3] 60 5 {} (by decide)
      (by simp [await_result, await_result_outcome, await_loop, store_download])⟩

theorem fetch_tex_filename_none {namelist : List (List Char)}
    (h : ∀ f ∈ namelist, List.isSuffixOf ".tex".data f = false) :
    fetch_tex_filename namelist = none := by
  induction namelist with
  | nil => rfl
  | cons f fs ih =>
      have hf : List.isSuffixOf ".tex".data f = false := h f (by simp)
      simp only [fetch_tex_filename, hf, Bool.false_eq_true, if_false]
      exact ih (fun g hg => h g (by simp [hg]))

/-- Counterexample to claim C7 as stated: for an archive whose entry list
has no `.tex` file, the legacy `pdf_to_txt` returns the sentinel string
`"No .tex file found in the zip archive."` as the document text — a
normal return — and `process_pdf` then writes that text to the fulltext
artifact and archives the PDF, so the caller observes a success, not a
fatal error. -/
theorem C7_counterexample :
    fetch_tex_filename ["images/figure1.jpg".data] = none ∧
    process_pdf_model
      (fun _ => Except.ok (pdf_to_txt_text (fun _ => []) (fun _ => [])
        ["images/figure1.jpg".data] [] [])) 60 5 =
      PipeOutcome.wrote "No .tex file found in the zip archive.".data := by
  constructor
  · decide
  · decide

/-- Claim C7, amended: for every downloaded archive that contains no
`.tex` entry, `parse_result` fails with the fatal no-tex-file assertion
error (not retried), but the legacy `pdf_to_txt` instead returns the
sentinel string `"No .tex file found in the zip archive."` as the
document text, which its caller treats as a success. -/
theorem C7_missing_tex (hashHex : List Nat → List Char)
    (namelist : List (List Char)) (r : MathpixResultM) (zb : List Char)
    (tableDesc : List Char → List Char) (imgDesc : Option (List Char) → List Char)
    (texContent : List Char) (nodes : List LNode)
    (hnotex : ∀ f ∈ namelist, List.isSuffixOf ".tex".data f = false)
    (hzb : r.zip_b64 = some zb)
    (hhash : r.zip_hash = some (hashHex (b64decode zb))) :
    parse_result_tex hashHex namelist r = Except.error ParseError.noTexFile ∧
    pdf_to_txt_text tableDesc imgDesc namelist texContent nodes =
      "No .tex file found in the zip archive.".data := by
  have hfetch : fetch_tex_filename namelist = none := fetch_tex_filename_none hnotex
  constructor
  · simp [parse_result_tex, hzb, hhash, hfetch]
  · simp [pdf_to_txt_text, hfetch]

/-- Witness for C7 (amended) at a concrete archive containing only an
image entry. -/
theorem C7_witness :
    (∀ f ∈ ["images/figure1.jpg".data], List.isSuffixOf ".tex".data f = false) ∧
    (MathpixResultM.zip_b64
        { zip_b64 := some [], zip_hash := some "h".data } = some [] ∧
      MathpixResultM.zip_hash
        { zip_b64 := some [], zip_hash := some "h".data } =
          some ((fun _ => "h".data) (b64decode [])) ∧
    (parse_result_tex (fun _ => "h".data) ["images/figure1.jpg".data]
        { zip_b64 := some [], zip_hash := some "h".data } =
      Except.error ParseError.noTexFile ∧
    pdf_to_txt_text (fun _ => []) (fun _ => []) ["images/figure1.jpg".data] [] [] =
      "No .tex file found in the zip archive.".data)) :=
  ⟨by decide, rfl, rfl,
    C7_missing_tex (fun _ => "h".data) ["images/figure1.jpg".data]
      { zip_b64 := some [], zip_hash := some "h".data } [] (fun _ => []) (fun _ => [])
      [] [] (by decide) rfl rfl⟩

end RetrievalFramework
